import Mathlib

/-!
Shallow embedding of the GitHub-membership → Permit relay (the Redis-backed
variant of the webhook server): the durable event store, the delivery
functions (createPermitUserAssignRole / removePermitUser), the per-record
processor (processMembershipEvent), the intake endpoint, the 5-minute retry
sweep and the startup recovery replay.

Modelling conventions:
- JS object fields that may be absent are Option; JS string truthiness
  (`!action`) is `none` or the empty string.
- The Permit backend is an oracle: createUser resolves to a user id or
  rejects; assignRole and deleteUser resolve or reject. Rejections model
  network / backend failures. Calls attempted are recorded in a trace.
- Redis is a list of key/entry pairs; SET with EX records the set time
  (milliseconds, as Date.now) and the TTL in seconds; GET and KEYS treat a
  key as absent once the TTL has elapsed.
- A JS async function either resolves (Except.ok, carrying the call trace)
  or rejects with a thrown message (Except.error).
-/

namespace PermitWebhook

/-- The user object inside a GitHub membership payload (membership.user). -/
structure GhUser where
  login : String
deriving DecidableEq, Repr

/-- The membership object of a GitHub webhook payload; user and role may be
absent in malformed payloads. -/
structure Membership where
  user : Option GhUser
  role : Option String
deriving DecidableEq, Repr

/-- An inbound webhook request body (req.body): the action string and the
membership object, either possibly missing. -/
structure Body where
  action : Option String
  membership : Option Membership
deriving DecidableEq, Repr

/-- One call attempted against the Permit API. -/
inductive ApiCall where
  | createUser (key : String)
  | assignRole (user role tenant : String)
  | deleteUser (key : String)
deriving DecidableEq, Repr

/-- Oracle for the Permit backend: createUser either resolves with the new
user's id or rejects (none); assignRole and deleteUser resolve iff their
oracle returns true. -/
structure Backend where
  createUserResp : String → Option String
  assignRoleOk : String → String → Bool
  deleteUserOk : String → Bool

/-- One stored Redis entry: the parsed body, the millisecond timestamp of
the SET, and the TTL in seconds given with EX. -/
structure Entry where
  value : Body
  setAtMs : Nat
  ttlSec : Nat
deriving DecidableEq, Repr

/-- The Redis keyspace used by the relay. -/
abbrev Store := List (String × Entry)

/-- Whether an entry is still alive at millisecond time `now` (Redis
expires a key `ttlSec` seconds after the SET). -/
def liveAt (now : Nat) (e : Entry) : Bool :=
  now < e.setAtMs + e.ttlSec * 1000

/-- Redis DEL: removes every binding of the key. -/
def redisDel : Store → String → Store
  | [], _ => []
  | (k1, e) :: st, k => if k1 = k then redisDel st k else (k1, e) :: redisDel st k

/-- Lookup of the raw entry bound to a key, ignoring expiry. -/
def lookupEntry : Store → String → Option Entry
  | [], _ => none
  | (k1, e) :: st, k => if k1 = k then some e else lookupEntry st k

/-- Redis SET with EX: overwrites any previous binding of the key. -/
def redisSet (st : Store) (k : String) (e : Entry) : Store :=
  redisDel st k ++ [(k, e)]

/-- Redis GET: the stored body, or none if the key is absent or expired. -/
def redisGet (now : Nat) (st : Store) (k : String) : Option Body :=
  match lookupEntry st k with
  | some e => if liveAt now e then some e.value else none
  | none => none

/-- Whether a key matches the KEYS pattern "event:*": its first six
characters are `event:`. -/
def matchesEventPattern (k : String) : Bool :=
  k.data.take 6 = ("event:").data

/-- Redis KEYS "event:*": the live keys matching the event pattern. -/
def redisKeys (now : Nat) : Store → List String
  | [] => []
  | (k, e) :: st =>
      if matchesEventPattern k && liveAt now e then k :: redisKeys now st
      else redisKeys now st

/-- The event id generated at intake: `event:` followed by Date.now(). -/
def genEventId (nowMs : Nat) : String :=
  "event:" ++ toString nowMs

/-- createPermitUserAssignRole(body): throws on invalid membership data;
otherwise calls permit.api.createUser and, if that resolved, assignRole with
tenant "default"; backend rejections are caught and swallowed (the function
still resolves), so the result carries only the trace of attempted calls. -/
def createPermitUserAssignRole (be : Backend) (b : Body) :
    Except String (List ApiCall) :=
  match b.membership with
  | none => Except.error ("Invalid membership data")
  | some m =>
    match m.user, m.role with
    | some u, some r =>
      if r = "" then Except.error ("Invalid membership data")
      else
        match be.createUserResp u.login with
        | none => Except.ok [ApiCall.createUser u.login]
        | some uid =>
            Except.ok [ApiCall.createUser u.login,
                       ApiCall.assignRole uid r ("default")]
    | _, _ => Except.error ("Invalid membership data")

/-- removePermitUser(body): throws on invalid membership data; otherwise
calls permit.api.deleteUser, whose rejection is caught and swallowed. -/
def removePermitUser (be : Backend) (b : Body) :
    Except String (List ApiCall) :=
  match b.membership with
  | none => Except.error ("Invalid membership data")
  | some m =>
    match m.user with
    | none => Except.error ("Invalid membership data")
    | some u => Except.ok [ApiCall.deleteUser u.login]

/-- processMembershipEvent(eventId, body): returns the updated store and the
trace of backend calls. Missing action logs and returns; member_invited
returns early (before the DEL); member_added / member_removed run their
delivery function inside try, and on normal completion (also for unhandled
actions) the record is deleted; a thrown validation error is caught and the
record is kept for retry. -/
def processMembershipEvent (be : Backend) (eventId : String) (b : Body)
    (st : Store) : Store × List ApiCall :=
  match b.action with
  | none => (st, [])
  | some a =>
    if a = "" then (st, [])
    else if a = "member_invited" then (st, [])
    else if a = "member_added" then
      match createPermitUserAssignRole be b with
      | Except.error _ => (st, [])
      | Except.ok calls => (redisDel st eventId, calls)
    else if a = "member_removed" then
      match removePermitUser be b with
      | Except.error _ => (st, [])
      | Except.ok calls => (redisDel st eventId, calls)
    else (redisDel st eventId, [])

/-- The persistence step of the intake endpoint: redis.set(eventId,
JSON.stringify(req.body), "EX", 86400) with eventId = event:Date.now(). -/
def intakePersist (nowMs : Nat) (b : Body) (st : Store) : Store :=
  redisSet st (genEventId nowMs) ⟨b, nowMs, 86400⟩

/-- Result of one intake request: final store, HTTP status, backend calls. -/
structure IntakeResult where
  store : Store
  status : Nat
  calls : List ApiCall
deriving DecidableEq, Repr

/-- The POST /github-membership handler: persist the body first (EX 86400),
then reject with 400 if the action is missing, otherwise process the event
and respond 200. -/
def intake (be : Backend) (nowMs : Nat) (b : Body) (st : Store) :
    IntakeResult :=
  let eventId := genEventId nowMs
  let st1 := intakePersist nowMs b st
  match b.action with
  | none => ⟨st1, 400, []⟩
  | some a =>
    if a = "" then ⟨st1, 400, []⟩
    else
      let p := processMembershipEvent be eventId b st1
      ⟨p.1, 200, p.2⟩

/-- Result of one pass over the store: final store, backend calls, and the
event ids for which processMembershipEvent was invoked. -/
structure SweepResult where
  store : Store
  calls : List ApiCall
  processed : List String
deriving DecidableEq, Repr

/-- The body of the setInterval retry loop: for each enumerated key, GET it
and, if a value is present, process it; a missing value is skipped. -/
def sweepLoop (be : Backend) (now : Nat) : List String → Store → SweepResult
  | [], st => ⟨st, [], []⟩
  | k :: rest, st =>
    match redisGet now st k with
    | none => sweepLoop be now rest st
    | some b =>
      let r := sweepLoop be now rest (processMembershipEvent be k b st).1
      ⟨r.store, (processMembershipEvent be k b st).2 ++ r.calls,
        k :: r.processed⟩

/-- One run of the 5-minute retry sweep: enumerate keys "event:*", then GET
and process each. -/
def retrySweep (be : Backend) (now : Nat) (st : Store) : SweepResult :=
  sweepLoop be now (redisKeys now st) st

/-- The body of the recovery loop in the app.listen callback: for each
enumerated key, GET it and, if a value is present, process it. -/
def replayLoop (be : Backend) (now : Nat) : List String → Store → SweepResult
  | [], st => ⟨st, [], []⟩
  | k :: rest, st =>
    match redisGet now st k with
    | none => replayLoop be now rest st
    | some b =>
      let r := replayLoop be now rest (processMembershipEvent be k b st).1
      ⟨r.store, (processMembershipEvent be k b st).2 ++ r.calls,
        k :: r.processed⟩

/-- The recovery replay run once at server start: enumerate keys "event:*",
then GET and process each. -/
def recoveryReplay (be : Backend) (now : Nat) (st : Store) : SweepResult :=
  replayLoop be now (redisKeys now st) st

/-- The guard of createPermitUserAssignRole: membership, user and role all
present (and the role string truthy). -/
def validAdd (b : Body) : Bool :=
  match b.membership with
  | none => false
  | some m =>
    match m.user, m.role with
    | some _, some r => !(r = "")
    | _, _ => false

/-- The guard of removePermitUser: membership and user present. -/
def validRemove (b : Body) : Bool :=
  match b.membership with
  | none => false
  | some m => m.user.isSome

/-- Whether processMembershipEvent reaches the redis.del call for a body:
the action is present, non-empty, not member_invited, and the switch case
for it completes without throwing. -/
def reachesDel (b : Body) : Bool :=
  match b.action with
  | none => false
  | some a =>
    if a = "" then false
    else if a = "member_invited" then false
    else if a = "member_added" then validAdd b
    else if a = "member_removed" then validRemove b
    else true

/-- Delivery success in the sense of the specification (§4.2), stated from
the spec's words, not from the code: an apply-grant succeeds when both the
createUser and the assignRole backend calls succeed; a retract-grant
succeeds when the deleteUser backend call succeeds. -/
def specDeliverySuccess (be : Backend) (b : Body) : Bool :=
  match b.action with
  | some a =>
    if a = "member_added" then
      match b.membership with
      | some m =>
        match m.user, m.role with
        | some u, some r =>
          !(r = "") &&
            (match be.createUserResp u.login with
             | some uid => be.assignRoleOk uid r
             | none => false)
        | _, _ => false
      | none => false
    else if a = "member_removed" then
      match b.membership with
      | some m =>
        match m.user with
        | some u => be.deleteUserOk u.login
        | none => false
      | none => false
    else false
  | none => false

/-! ### Store lemmas -/

theorem lookupEntry_del_self (st : Store) (k : String) :
    lookupEntry (redisDel st k) k = none := by
  induction st with
  | nil => rfl
  | cons p st ih =>
    obtain ⟨k1, e⟩ := p
    by_cases h : k1 = k <;> simp [redisDel, lookupEntry, h, ih]

theorem lookupEntry_del_ne (st : Store) (id k : String) (h : k ≠ id) :
    lookupEntry (redisDel st id) k = lookupEntry st k := by
  induction st with
  | nil => rfl
  | cons p st ih =>
    obtain ⟨k1, e⟩ := p
    by_cases h1 : k1 = id
    · have h2 : ¬ k1 = k := by rw [h1]; exact fun hh => h hh.symm
      simp only [redisDel, lookupEntry, if_pos h1, if_neg h2]
      exact ih
    · by_cases h2 : k1 = k
      · simp only [redisDel, lookupEntry, if_neg h1, if_pos h2]
      · simp only [redisDel, lookupEntry, if_neg h1, if_neg h2]
        exact ih

theorem lookupEntry_del_none (st : Store) (id k : String)
    (h : lookupEntry st k = none) :
    lookupEntry (redisDel st id) k = none := by
  by_cases hk : k = id
  · subst hk; exact lookupEntry_del_self st k
  · rw [lookupEntry_del_ne st id k hk]; exact h

theorem lookupEntry_append_none (l1 l2 : Store) (k : String)
    (h : lookupEntry l1 k = none) :
    lookupEntry (l1 ++ l2) k = lookupEntry l2 k := by
  induction l1 with
  | nil => rfl
  | cons p l1 ih =>
    obtain ⟨k1, e⟩ := p
    by_cases h1 : k1 = k
    · simp [lookupEntry, h1] at h
    · simp only [lookupEntry, h1, if_false, List.cons_append] at h ⊢
      exact ih h

theorem lookupEntry_set_self (st : Store) (k : String) (e : Entry) :
    lookupEntry (redisSet st k e) k = some e := by
  rw [redisSet, lookupEntry_append_none _ _ _ (lookupEntry_del_self st k)]
  simp [lookupEntry]

theorem redisDel_append (l1 l2 : Store) (k : String) :
    redisDel (l1 ++ l2) k = redisDel l1 k ++ redisDel l2 k := by
  induction l1 with
  | nil => rfl
  | cons p l1 ih =>
    obtain ⟨k1, e⟩ := p
    by_cases h : k1 = k <;> simp [redisDel, h, ih]

theorem redisDel_idem (st : Store) (k : String) :
    redisDel (redisDel st k) k = redisDel st k := by
  induction st with
  | nil => rfl
  | cons p st ih =>
    obtain ⟨k1, e⟩ := p
    by_cases h : k1 = k <;> simp [redisDel, h, ih]

theorem redisSet_set_same (st : Store) (k : String) (e1 e2 : Entry) :
    redisSet (redisSet st k e1) k e2 = redisSet st k e2 := by
  simp [redisSet, redisDel_append, redisDel_idem, redisDel]

theorem redisGet_del_ne (now : Nat) (st : Store) (id k : String)
    (h : k ≠ id) :
    redisGet now (redisDel st id) k = redisGet now st k := by
  rw [redisGet, redisGet, lookupEntry_del_ne st id k h]

/-! ### Characterisation of processMembershipEvent -/

theorem createPUAR_ok_iff (be : Backend) (b : Body) :
    (∃ calls, createPermitUserAssignRole be b = Except.ok calls) ↔
      validAdd b = true := by
  rcases b with ⟨action, membership⟩
  rcases membership with _ | m
  · simp [createPermitUserAssignRole, validAdd]
  · rcases m with ⟨u, r⟩
    rcases u with _ | u <;> rcases r with _ | r <;>
      simp [createPermitUserAssignRole, validAdd]
    by_cases hr : r = ""
    · simp [hr]
    · cases h : be.createUserResp u.login <;> simp [hr, h]

theorem removePU_ok_iff (be : Backend) (b : Body) :
    (∃ calls, removePermitUser be b = Except.ok calls) ↔
      validRemove b = true := by
  rcases b with ⟨action, membership⟩
  rcases membership with _ | m
  · simp [removePermitUser, validRemove]
  · rcases m with ⟨u, r⟩
    rcases u with _ | u <;> simp [removePermitUser, validRemove]

theorem process_store_eq (be : Backend) (id : String) (b : Body)
    (st : Store) :
    (processMembershipEvent be id b st).1 =
      if reachesDel b = true then redisDel st id else st := by
  rcases b with ⟨action, membership⟩
  rcases action with _ | a
  · rfl
  · by_cases h1 : a = ""
    · subst h1; rfl
    by_cases h2 : a = "member_invited"
    · subst h2; rfl
    by_cases h3 : a = "member_added"
    · subst h3
      rcases hc : createPermitUserAssignRole be ⟨some ("member_added"), membership⟩
        with msg | calls
      · have hv : ¬ validAdd ⟨some ("member_added"), membership⟩ = true := by
          rw [← createPUAR_ok_iff be ⟨some ("member_added"), membership⟩]
          rintro ⟨c, hcc⟩
          rw [hc] at hcc
          cases hcc
        simp [processMembershipEvent, reachesDel, h1, h2, hc, hv]
      · have hv : validAdd ⟨some ("member_added"), membership⟩ = true :=
          (createPUAR_ok_iff be ⟨some ("member_added"), membership⟩).mp ⟨calls, hc⟩
        simp [processMembershipEvent, reachesDel, h1, h2, hc, hv]
    by_cases h4 : a = "member_removed"
    · subst h4
      rcases hc : removePermitUser be ⟨some ("member_removed"), membership⟩
        with msg | calls
      · have hv : ¬ validRemove ⟨some ("member_removed"), membership⟩ = true := by
          rw [← removePU_ok_iff be ⟨some ("member_removed"), membership⟩]
          rintro ⟨c, hcc⟩
          rw [hc] at hcc
          cases hcc
        simp [processMembershipEvent, reachesDel, h1, h2, h3, hc, hv]
      · have hv : validRemove ⟨some ("member_removed"), membership⟩ = true :=
          (removePU_ok_iff be ⟨some ("member_removed"), membership⟩).mp ⟨calls, hc⟩
        simp [processMembershipEvent, reachesDel, h1, h2, h3, hc, hv]
    · simp [processMembershipEvent, reachesDel, h1, h2, h3, h4]

theorem lookupEntry_process_ne (be : Backend) (id k : String)
    (b : Body) (st : Store) (h : k ≠ id) :
    lookupEntry (processMembershipEvent be id b st).1 k = lookupEntry st k := by
  rw [process_store_eq]
  split
  · exact lookupEntry_del_ne st id k h
  · rfl

theorem redisGet_process_ne (be : Backend) (now : Nat) (id k : String)
    (b : Body) (st : Store) (h : k ≠ id) :
    redisGet now (processMembershipEvent be id b st).1 k =
      redisGet now st k := by
  rw [redisGet, redisGet, lookupEntry_process_ne be id k b st h]

theorem lookupEntry_process_none (be : Backend) (id k : String) (b : Body)
    (st : Store) (h : lookupEntry st k = none) :
    lookupEntry (processMembershipEvent be id b st).1 k = none := by
  rw [process_store_eq]
  split
  · exact lookupEntry_del_none st id k h
  · exact h

/-! ### Sweep-loop lemmas -/

theorem lookupEntry_sweepLoop_none (be : Backend) (now : Nat) :
    ∀ (ks : List String) (st : Store) (k : String),
      lookupEntry st k = none →
      lookupEntry (sweepLoop be now ks st).store k = none := by
  intro ks
  induction ks with
  | nil => intro st k h; exact h
  | cons k1 rest ih =>
    intro st k h
    rw [sweepLoop]
    cases hg : redisGet now st k1 with
    | none => exact ih st k h
    | some b =>
      exact ih _ k (lookupEntry_process_none be k1 k b st h)

theorem sweepLoop_processed_of_mem (be : Backend) (now : Nat) (k : String)
    (b : Body) :
    ∀ (ks : List String) (st : Store), k ∈ ks →
      redisGet now st k = some b →
      k ∈ (sweepLoop be now ks st).processed := by
  intro ks
  induction ks with
  | nil => intro st hmem _; cases hmem
  | cons k1 rest ih =>
    intro st hmem hget
    by_cases hk : k1 = k
    · subst hk
      rw [sweepLoop, hget]
      exact List.mem_cons_self _ _
    · have hmem1 : k ∈ rest := by
        rcases List.mem_cons.mp hmem with h | h
        · exact absurd h.symm hk
        · exact h
      rw [sweepLoop]
      cases hg : redisGet now st k1 with
      | none => exact ih st hmem1 hget
      | some b1 =>
        have hpres : redisGet now (processMembershipEvent be k1 b1 st).1 k =
            some b := by
          rw [redisGet_process_ne be now k1 k b1 st (fun hh => hk hh.symm)]
          exact hget
        exact List.mem_cons_of_mem _ (ih _ hmem1 hpres)

theorem sweepLoop_deleted_of_mem (be : Backend) (now : Nat) (k : String)
    (b : Body) (hdel : reachesDel b = true) :
    ∀ (ks : List String) (st : Store), k ∈ ks →
      redisGet now st k = some b →
      lookupEntry (sweepLoop be now ks st).store k = none := by
  intro ks
  induction ks with
  | nil => intro st hmem _; cases hmem
  | cons k1 rest ih =>
    intro st hmem hget
    by_cases hk : k1 = k
    · subst hk
      rw [sweepLoop, hget]
      have h1 : lookupEntry (processMembershipEvent be k1 b st).1 k1 = none := by
        rw [process_store_eq, if_pos hdel]
        exact lookupEntry_del_self st k1
      exact lookupEntry_sweepLoop_none be now rest _ k1 h1
    · have hmem1 : k ∈ rest := by
        rcases List.mem_cons.mp hmem with h | h
        · exact absurd h.symm hk
        · exact h
      rw [sweepLoop]
      cases hg : redisGet now st k1 with
      | none => exact ih st hmem1 hget
      | some b1 =>
        have hpres : redisGet now (processMembershipEvent be k1 b1 st).1 k =
            some b := by
          rw [redisGet_process_ne be now k1 k b1 st (fun hh => hk hh.symm)]
          exact hget
        exact ih _ hmem1 hpres

theorem replayLoop_eq_sweepLoop (be : Backend) (now : Nat) :
    ∀ (ks : List String) (st : Store),
      replayLoop be now ks st = sweepLoop be now ks st := by
  intro ks
  induction ks with
  | nil => intro st; rfl
  | cons k1 rest ih =>
    intro st
    cases hg : redisGet now st k1 with
    | none => simp [replayLoop, sweepLoop, hg, ih]
    | some b => simp [replayLoop, sweepLoop, hg, ih]

/-! ### Concrete fixtures -/

/-- A backend where every Permit call rejects (backend unreachable). -/
def beDown : Backend :=
  ⟨fun _ => none, fun _ _ => false, fun _ => false⟩

/-- A backend where every Permit call succeeds; createUser resolves with the
user key as the id. -/
def beUp : Backend :=
  ⟨fun k => some k, fun _ _ => true, fun _ => true⟩

/-- A well-formed member_added payload for user alice with role admin. -/
def bodyAddAlice : Body :=
  ⟨some ("member_added"), some ⟨some ⟨"alice"⟩, some ("admin")⟩⟩

/-- A well-formed member_added payload for user bob with role member. -/
def bodyAddBob : Body :=
  ⟨some ("member_added"), some ⟨some ⟨"bob"⟩, some ("member")⟩⟩

/-- A member_invited payload. -/
def bodyInvited : Body :=
  ⟨some ("member_invited"), none⟩

/-- A malformed member_added payload: the membership object is missing. -/
def bodyMalformedAdd : Body :=
  ⟨some ("member_added"), none⟩

/-- A payload whose action field is missing. -/
def bodyNoAction : Body :=
  ⟨none, some ⟨some ⟨"carol"⟩, some ("member")⟩⟩

/-- A well-formed member_removed payload for user bob. -/
def bodyRemoveBob : Body :=
  ⟨some ("member_removed"), some ⟨some ⟨"bob"⟩, none⟩⟩

/-- A freshly persisted entry for a body, set at time 0 with the TTL used by
the intake path. -/
def entryOf (b : Body) : Entry :=
  ⟨b, 0, 86400⟩

/-! ### Claim theorems -/

/-- C1: the claim states that when the policy-backend call rejects, the
pending record is left in the store for the next sweep. The code does the
opposite: with the backend down (createUser rejects), processing a
well-formed member_added record still deletes it from the store, because
createPermitUserAssignRole swallows the rejection in its inner catch and
processMembershipEvent then reaches redis.del. The conjuncts record that the
backend call was attempted and rejected, yet the resulting store is empty. -/
theorem c1_backend_failure_record_deleted :
    beDown.createUserResp ("alice") = none ∧
    processMembershipEvent beDown ("event:1") bodyAddAlice
        [(("event:1"), entryOf bodyAddAlice)] =
      ([], [ApiCall.createUser ("alice")]) :=
  ⟨rfl, rfl⟩

/-- C2: the claim states a record (operation ≠ ignore) is eventually deleted
iff Delivery reports success for it. The code violates the only-if
direction: a sweep against an unreachable backend deletes the well-formed
member_added record even though delivery never succeeded (the createUser
rejection is swallowed), so the record is gone and is never retried once the
backend comes back. -/
theorem c2_deleted_without_delivery_success :
    specDeliverySuccess beDown bodyAddBob = false ∧
    retrySweep beDown 1 [(("event:2"), entryOf bodyAddBob)] =
      ⟨[], [ApiCall.createUser ("bob")], [("event:2")]⟩ :=
  ⟨rfl, rfl⟩

/-- C3 counterexample: a persisted malformed member_added record (membership
object missing) is NOT removed by processing it — the thrown validation
error is caught and the record is kept in the store, refuting the claim
that a malformed record is removed and not retried. -/
theorem c3_malformed_kept_counterexample :
    lookupEntry (processMembershipEvent beUp ("event:3") bodyMalformedAdd
        [(("event:3"), entryOf bodyMalformedAdd)]).1 ("event:3") =
      some (entryOf bodyMalformedAdd) :=
  rfl

/-- C3 amended: processing a malformed record (member_added missing the
membership object, user or role; member_removed missing membership or user)
is a validation failure that is logged and leaves the store unchanged — the
record is KEPT and retried by every later sweep until its TTL expires — and
no backend call is made. -/
theorem c3_malformed_record_kept (be : Backend) (id : String) (st : Store)
    (b : Body)
    (h : (b.action = some ("member_added") ∧ validAdd b = false) ∨
         (b.action = some ("member_removed") ∧ validRemove b = false)) :
    processMembershipEvent be id b st = (st, []) := by
  rcases h with ⟨ha, hv⟩ | ⟨ha, hv⟩
  · rcases b with ⟨action, membership⟩
    cases ha
    rcases membership with _ | ⟨u, r⟩
    · rfl
    · rcases u with _ | u
      · rfl
      · rcases r with _ | r
        · rfl
        · have hr : r = "" := by simpa [validAdd] using hv
          subst hr
          rfl
  · rcases b with ⟨action, membership⟩
    cases ha
    rcases membership with _ | ⟨u, r⟩
    · rfl
    · rcases u with _ | u
      · rfl
      · simp [validRemove] at hv

theorem c3_malformed_record_kept_witness :
    processMembershipEvent beUp ("event:33") ⟨some ("member_removed"), none⟩
      [] = ([], []) :=
  c3_malformed_record_kept beUp ("event:33") []
    ⟨some ("member_removed"), none⟩ (Or.inr ⟨rfl, rfl⟩)

/-- C4 counterexample: a pending member_invited record is processed without
any backend call, the processor returns normally, but the record is NOT
deleted: the early return in the member_invited case skips redis.del, so
the record is still in the store afterwards — refuting the claim that it is
deleted per the delete-on-success rule. -/
theorem c4_invited_not_deleted_counterexample :
    lookupEntry (processMembershipEvent beUp ("event:4") bodyInvited
        [(("event:4"), entryOf bodyInvited)]).1 ("event:4") =
      some (entryOf bodyInvited) :=
  rfl

/-- C4 amended: processing a member_invited record makes no backend call and
completes normally, but the record is NOT deleted — the early return skips
the deletion, so the store is left unchanged and the record stays pending
until its TTL expires. -/
theorem c4_invited_no_call_not_deleted (be : Backend) (id : String)
    (st : Store) (b : Body) (h : b.action = some ("member_invited")) :
    processMembershipEvent be id b st = (st, []) := by
  rcases b with ⟨action, membership⟩
  cases h
  rfl

theorem c4_invited_no_call_not_deleted_witness :
    processMembershipEvent beDown ("event:44") ⟨some ("member_invited"), none⟩
      [] = ([], []) :=
  c4_invited_no_call_not_deleted beDown ("event:44") []
    ⟨some ("member_invited"), none⟩ rfl

/-- C5 counterexample: an inbound payload with no action field gets the 400
client-error response, but the payload HAS been written to the store: after
the request the store contains the record under the generated event id,
refuting "nothing is written to the Durable Store for that request". -/
theorem c5_missing_action_persisted_counterexample :
    (intake beUp 42 bodyNoAction []).status = 400 ∧
    lookupEntry (intake beUp 42 bodyNoAction []).store (genEventId 42) =
      some ⟨bodyNoAction, 42, 86400⟩ :=
  ⟨rfl, rfl⟩

/-- C5 amended: a payload whose action is missing is answered with status
400 and no backend call is made, but it is persisted BEFORE the action
check: the resulting store is exactly the store with the new record added
under the generated id (TTL 86400), and that record is retrievable. -/
theorem c5_missing_action_400_but_persisted (be : Backend) (now : Nat)
    (st : Store) (b : Body) (h : b.action = none) :
    (intake be now b st).status = 400 ∧
    (intake be now b st).store = intakePersist now b st ∧
    lookupEntry (intake be now b st).store (genEventId now) =
      some ⟨b, now, 86400⟩ ∧
    (intake be now b st).calls = [] := by
  rcases b with ⟨action, membership⟩
  cases h
  exact ⟨rfl, rfl, lookupEntry_set_self st (genEventId now) _, rfl⟩

theorem c5_missing_action_400_but_persisted_witness :
    (intake beDown 7 ⟨none, none⟩ []).status = 400 ∧
    (intake beDown 7 ⟨none, none⟩ []).store = intakePersist 7 ⟨none, none⟩ [] ∧
    lookupEntry (intake beDown 7 ⟨none, none⟩ []).store (genEventId 7) =
      some ⟨⟨none, none⟩, 7, 86400⟩ ∧
    (intake beDown 7 ⟨none, none⟩ []).calls = [] :=
  c5_missing_action_400_but_persisted beDown 7 [] ⟨none, none⟩ rfl

/-- C6 counterexample: two distinct payloads accepted in the same
millisecond receive the same generated identifier, and the second persist
overwrites the first: after both intakes the store holds a single record,
carrying only the second body — refuting identifier uniqueness per record
for same-millisecond requests. -/
theorem c6_same_millisecond_collision_counterexample :
    (⟨none, none⟩ : Body) ≠ bodyNoAction ∧
    (intake beUp 1000 bodyNoAction
        (intake beUp 1000 ⟨none, none⟩ []).store).store =
      [((genEventId 1000), ⟨bodyNoAction, 1000, 86400⟩)] :=
  ⟨by decide, rfl⟩

/-- C6 amended: the generated identifier depends only on the intake
millisecond (event:Date.now()), so identifiers are NOT unique per record:
two intakes in the same millisecond receive the identical identifier and
the later persist overwrites the earlier record — persisting b1 and then b2
at the same millisecond leaves the store exactly as persisting only b2. -/
theorem c6_same_ms_id_overwrite (t : Nat) (st : Store) (b1 b2 : Body) :
    intakePersist t b2 (intakePersist t b1 st) = intakePersist t b2 st := by
  simp only [intakePersist]
  exact redisSet_set_same st (genEventId t) _ _

/-- C7: the recovery replay run at process start performs the identical
enumerate-and-attempt procedure as one retry-sweep pass: for every backend
behaviour, time and store state it yields the same resulting store, the
same backend calls and the same set of processed records. -/
theorem c7_replay_equals_sweep (be : Backend) (now : Nat) (st : Store) :
    recoveryReplay be now st = retrySweep be now st := by
  rw [recoveryReplay, retrySweep, replayLoop_eq_sweepLoop]

/-- C8: in a sweep over a set of enumerated keys in which some record kBad
fails Delivery (its processing does not reach the deletion), every other
live record k is still attempted in the same pass, and if its delivery
reaches the deletion it is removed from the store. -/
theorem c8_failure_isolation (be : Backend) (now : Nat) (st : Store)
    (ks : List String) (kBad : String) (bBad : Body) (k : String) (b : Body)
    (hkBad : kBad ∈ ks) (hBadLive : redisGet now st kBad = some bBad)
    (hBadFail : reachesDel bBad = false)
    (hk : k ∈ ks) (hne : k ≠ kBad)
    (hLive : redisGet now st k = some b) :
    k ∈ (sweepLoop be now ks st).processed ∧
    (reachesDel b = true →
      lookupEntry (sweepLoop be now ks st).store k = none) := by
  refine ⟨sweepLoop_processed_of_mem be now k b ks st hk hLive, ?_⟩
  intro hdel
  exact sweepLoop_deleted_of_mem be now k b hdel ks st hk hLive

theorem c8_failure_isolation_witness :
    ("event:82") ∈ (sweepLoop beUp 1 [("event:81"), ("event:82")]
      [(("event:81"), entryOf bodyMalformedAdd),
       (("event:82"), entryOf bodyRemoveBob)]).processed ∧
    (reachesDel bodyRemoveBob = true →
      lookupEntry (sweepLoop beUp 1 [("event:81"), ("event:82")]
        [(("event:81"), entryOf bodyMalformedAdd),
         (("event:82"), entryOf bodyRemoveBob)]).store ("event:82") = none) :=
  c8_failure_isolation beUp 1
    [(("event:81"), entryOf bodyMalformedAdd),
     (("event:82"), entryOf bodyRemoveBob)]
    [("event:81"), ("event:82")]
    ("event:81") bodyMalformedAdd ("event:82") bodyRemoveBob
    (by decide) rfl rfl (by decide) (by decide) rfl

/-- C9: the intake path persists every record with a TTL of exactly 86400
seconds from its creation time, and once those 86400 seconds have elapsed
the store no longer returns the record, delivered or not. -/
theorem c9_ttl_86400 (now : Nat) (b : Body) (st : Store) :
    lookupEntry (intakePersist now b st) (genEventId now) =
      some ⟨b, now, 86400⟩ ∧
    (∀ t, now + 86400 * 1000 ≤ t →
      redisGet t (intakePersist now b st) (genEventId now) = none) := by
  refine ⟨lookupEntry_set_self st (genEventId now) _, ?_⟩
  intro t ht
  have hlive : liveAt t (⟨b, now, 86400⟩ : Entry) = false := by
    simp only [liveAt, decide_eq_false_iff_not, not_lt]
    omega
  simp [redisGet, intakePersist, lookupEntry_set_self, hlive]

theorem c9_ttl_86400_witness :
    lookupEntry (intakePersist 0 bodyAddAlice []) (genEventId 0) =
      some ⟨bodyAddAlice, 0, 86400⟩ ∧
    redisGet 86400000 (intakePersist 0 bodyAddAlice []) (genEventId 0) =
      none :=
  ⟨(c9_ttl_86400 0 bodyAddAlice []).1,
   (c9_ttl_86400 0 bodyAddAlice []).2 86400000 (by omega)⟩

/-- C10: if an enumerated key has no live value by the time it is read back
(absent or expired), both the retry sweep and the recovery replay skip it
without error and continue with the remaining keys on the unchanged
store. -/
theorem c10_missing_value_skipped (be : Backend) (now : Nat) (st : Store)
    (ks : List String) (k : String) (h : redisGet now st k = none) :
    sweepLoop be now (k :: ks) st = sweepLoop be now ks st ∧
    replayLoop be now (k :: ks) st = replayLoop be now ks st := by
  constructor
  · rw [sweepLoop, h]
  · rw [replayLoop, h]

theorem c10_missing_value_skipped_witness :
    sweepLoop beUp 5 [("event:99")] [(("event:99"), ⟨bodyAddAlice, 0, 0⟩)] =
      sweepLoop beUp 5 [] [(("event:99"), ⟨bodyAddAlice, 0, 0⟩)] ∧
    replayLoop beUp 5 [("event:99")] [(("event:99"), ⟨bodyAddAlice, 0, 0⟩)] =
      replayLoop beUp 5 [] [(("event:99"), ⟨bodyAddAlice, 0, 0⟩)] :=
  c10_missing_value_skipped beUp 5 [(("event:99"), ⟨bodyAddAlice, 0, 0⟩)] []
    ("event:99") rfl

end PermitWebhook
